import Mathlib

/-!
Verification development for the PyScripts4BPHackathon2025 repository.

The definitions below are shallow embeddings of the Python sources:
Scripts/IDS_Parser_2.py and Scripts/ids_match_panel.py (structural IDS
parser, match operator), Scripts/IFC_fix_properties.py and
Scripts/ids_patch_panel_main_button_active.py (property patch engine),
Scripts/ifc2ids_recipe.py (analyzer and generation pass, argument
handling) and Scripts/ids_fetch_panel.py (connect action fallback).
Python dictionaries are modelled as insertion-ordered association lists,
Python string truthiness as the nonempty test, and a raised exception as
an explicit boolean flag or error value.
-/

/-- Lookup in an insertion-ordered association list, the model of a
Python dictionary access. -/
def alistLookup {α : Type} (k : String) : List (String × α) → Option α
  | [] => none
  | (k1, v) :: rest => if k = k1 then some v else alistLookup k rest

/-- Update the value stored under a key, leaving the list unchanged when
the key is absent; models an in-place Python dictionary item mutation. -/
def alistUpdate {α : Type} (k : String) (f : α → α) : List (String × α) → List (String × α)
  | [] => []
  | (k1, v) :: rest => if k = k1 then (k1, f v) :: rest else (k1, v) :: alistUpdate k f rest

/-! ## Structural IDS parser (parse_ids in IDS_Parser_2.py, lines 12 to 66,
and the identical copy in ids_match_panel.py, lines 28 to 83) -/

/-- An entity element under applicability; findtext with default empty
string makes both fields plain strings, empty when the element is
missing. -/
structure IdsEntity where
  name : String
  predefinedType : String
deriving DecidableEq

/-- A property element under requirements, read through its propertySet
and baseName simple values, each defaulting to the empty string. -/
structure IdsPropertyReq where
  propertySet : String
  baseName : String
deriving DecidableEq

/-- One specification element: its name attribute and the optional
applicability and requirements sections (spec.find returns None when a
section is absent, in which case the specification is skipped). -/
structure IdsSpecification where
  name : String
  applicability : Option (List IdsEntity)
  requirements : Option (List IdsPropertyReq)
deriving DecidableEq

/-- One value of the result map: the owning specification name and the
properties sub-map, property set name to base-name placeholders. -/
structure EntityEntry where
  name : String
  properties : List (String × List String)
deriving DecidableEq

/-- Entity key construction: name.predefinedType when the predefined
type is truthy (nonempty), the name alone otherwise. -/
def entityKey (e : IdsEntity) : String :=
  if e.predefinedType ≠ "" then e.name ++ "." ++ e.predefinedType else e.name

/-- The body of the requirements loop: when the propertySet simple value
is truthy ensure a nested map for it exists, and when the baseName is
also truthy ensure an empty placeholder node for it exists. -/
def addPropertyReq (entry : EntityEntry) (p : IdsPropertyReq) : EntityEntry :=
  if p.propertySet = "" then entry
  else
    let props1 :=
      match alistLookup p.propertySet entry.properties with
      | some _ => entry.properties
      | none => entry.properties ++ [(p.propertySet, [])]
    if p.baseName = "" then { entry with properties := props1 }
    else
      { entry with
        properties :=
          alistUpdate p.propertySet
            (fun names => if p.baseName ∈ names then names else names ++ [p.baseName]) props1 }

/-- The body of the entity loop: compute the key, warn on a duplicate
(the warning list records the key), create the entry only when absent,
then run the requirements loop against the entry stored at the key. -/
def processEntity (specName : String) (props : List IdsPropertyReq)
    (acc : List (String × EntityEntry) × List String) (e : IdsEntity) :
    List (String × EntityEntry) × List String :=
  let key := entityKey e
  let warnings :=
    match alistLookup key acc.1 with
    | some _ => acc.2 ++ [key]
    | none => acc.2
  let result :=
    match alistLookup key acc.1 with
    | some _ => acc.1
    | none => acc.1 ++ [(key, { name := specName, properties := [] })]
  (alistUpdate key (fun entry => props.foldl addPropertyReq entry) result, warnings)

/-- The body of the specification loop: skip a specification lacking an
applicability or a requirements section, otherwise run the entity loop. -/
def processSpec (acc : List (String × EntityEntry) × List String)
    (spec : IdsSpecification) : List (String × EntityEntry) × List String :=
  match spec.applicability, spec.requirements with
  | some entities, some props => entities.foldl (processEntity spec.name props) acc
  | _, _ => acc

/-- parse_ids over an already structurally decoded document: the result
map together with the list of duplicate-key warnings printed. -/
def parseIds (specs : List IdsSpecification) :
    List (String × EntityEntry) × List String :=
  specs.foldl processSpec ([], [])

/-! ## Property patch engine (IFC_fix_properties.py, lines 58 to 85, and
the identical copy in ids_patch_panel_main_button_active.py, lines 72
to 100) -/

/-- A Python runtime value held by NominalValue.wrappedValue; the
configurations in scope carry integers, strings and booleans. -/
inductive PyVal where
  | int (i : Int)
  | str (s : String)
  | bool (b : Bool)
deriving DecidableEq

/-- Python equality between values of these runtime types; a boolean
compares numerically with an integer, values of unrelated types are
unequal. In the engine the comparison is always between a value and a
coercion to that same runtime type. -/
def pyEq : PyVal → PyVal → Bool
  | .int a, .int b => a == b
  | .str a, .str b => a == b
  | .bool a, .bool b => a == b
  | .bool a, .int b => (if a then (1 : Int) else 0) == b
  | .int a, .bool b => a == (if b then (1 : Int) else 0)
  | _, _ => false

/-- The Python int constructor applied to a string: surrounding
whitespace is stripped, an optional sign precedes a nonempty digit run;
anything else raises, modelled as none. -/
def pyIntOfString (s : String) : Option Int :=
  let t := ((s.data.dropWhile Char.isWhitespace).reverse.dropWhile Char.isWhitespace).reverse
  match t with
  | [] => none
  | c :: rest =>
    let signed : Int × List Char :=
      if c = '-' then (-1, rest) else if c = '+' then (1, rest) else (1, c :: rest)
    if signed.2 ≠ [] ∧ signed.2.all Char.isDigit then
      some (signed.1 * (signed.2.foldl (fun a d => a * 10 + (d.toNat - 48)) 0 : Nat))
    else none

/-- type(property_value)(old_value): coerce a configuration string to
the runtime type of the current value. The int constructor can raise
(none); the str constructor is the identity; the bool constructor is
string truthiness. -/
def coercePy (template : PyVal) (s : String) : Option PyVal :=
  match template with
  | .int _ => (pyIntOfString s).map PyVal.int
  | .str _ => some (.str s)
  | .bool _ => some (.bool (s != ""))

/-- The replace_values loop. property_value is the value read once
before the loop; stored is the current content of the wrapped literal.
Every comparison is against property_value, every write goes to the
stored literal. The boolean records whether a coercion raised, which
aborts the surrounding run with the literal as written so far. -/
def replaceValuesGo (property_value : PyVal) :
    List (String × String) → PyVal → PyVal × Bool
  | [], stored => (stored, false)
  | (old_value, new_value) :: rest, stored =>
    match coercePy property_value old_value with
    | none => (stored, true)
    | some oldV =>
      if pyEq property_value oldV then
        match coercePy property_value new_value with
        | none => (stored, true)
        | some newV => replaceValuesGo property_value rest newV
      else replaceValuesGo property_value rest stored

/-- Run the replace_values map (an insertion-ordered list of string
pairs, as JSON object items) against a current literal value. -/
def handleReplaceValues (property_value : PyVal) (pairs : List (String × String)) :
    PyVal × Bool :=
  replaceValuesGo property_value pairs property_value

/-- Configuration attached to one property name inside
properties_values: an optional replacement name and an optional
old-to-new literal map. -/
structure PropConfig where
  replaceName : Option String
  replaceValues : Option (List (String × String))
deriving DecidableEq

/-- A single-value property: its Name attribute, whether it is an
IfcPropertySingleValue, and the wrapped literal when NominalValue is
present and carries a wrappedValue. -/
structure PropSingleValue where
  name : String
  isSingleValue : Bool
  nominalValue : Option PyVal
deriving DecidableEq

/-- handle_property_single_value: the property name is captured before
any rename; the rename happens first, then the value replacement looks
the configuration up under the captured original name. The boolean is
the raised-exception flag threaded out of the replace_values loop. -/
def handle_property_single_value (p : PropSingleValue)
    (properties_values : List (String × PropConfig)) : PropSingleValue × Bool :=
  let property_name := p.name
  let p1 :=
    match alistLookup property_name properties_values with
    | some cfg =>
      match cfg.replaceName with
      | some newName => { p with name := newName }
      | none => p
    | none => p
  if p1.isSingleValue then
    match p1.nominalValue with
    | some property_value =>
      match alistLookup property_name properties_values with
      | some cfg =>
        match cfg.replaceValues with
        | some pairs =>
          let r := handleReplaceValues property_value pairs
          ({ p1 with nominalValue := some r.1 }, r.2)
        | none => (p1, false)
      | none => (p1, false)
    | none => (p1, false)
  else (p1, false)

/-! ## Output path of process_ifc_file (IFC_fix_properties.py, lines 53
to 55): output_file is ifc_file.replace with pattern .ifc and
replacement _fixed.ifc -/

/-- Python str.replace scanning: at skip zero, when the pattern starts
here emit the replacement and skip the rest of the matched occurrence,
otherwise keep the character; occurrences are non-overlapping, found
left to right. -/
def pyRepAux (pat rep : List Char) : List Char → Nat → List Char
  | [], _ => []
  | _ :: rest, n + 1 => pyRepAux pat rep rest n
  | c :: rest, 0 =>
    if pat.isPrefixOf (c :: rest) then rep ++ pyRepAux pat rep rest (pat.length - 1)
    else c :: pyRepAux pat rep rest 0

/-- Python str.replace for a nonempty pattern: every non-overlapping
occurrence is replaced. -/
def pyStrReplace (s pat rep : String) : String :=
  String.mk (pyRepAux pat.data rep.data s.data 0)

/-- The output path computed by process_ifc_file before writing the
patched model. -/
def processIfcOutputPath (ifc_file : String) : String :=
  pyStrReplace ifc_file ".ifc" "_fixed.ifc"

/-- Modelled from the spec: the sibling path formed by replacing the
final four-character .ifc suffix of the input with _fixed.ifc, the rest
of the path unchanged. Stated for comparison with the source behaviour
above. -/
def specSiblingOutputPath (s : String) : String :=
  String.mk (s.data.take (s.data.length - 4)) ++ "_fixed.ifc"

/-! ## Analyzer generation pass (ifc2ids_recipe.py,
_create_element_specifications lines 250 to 289,
_create_property_specifications lines 291 to 332) -/

/-- Per-property accumulator inside a property-set entry of
property_stats: a running count plus the distinct string-formed values
and runtime-type names seen. -/
structure PsetPropInfo where
  count : Nat
  values : List String := []
  dataTypeNames : List String := []
deriving DecidableEq

/-- One property_stats entry: the element types seen using the set, the
per-property accumulators, and the usage count of the set. -/
structure PsetStats where
  elements : List String
  properties : List (String × PsetPropInfo)
  count : Nat
deriving DecidableEq

/-- One element_stats entry: instance count and the names of the
property sets, materials and classifications collected for the type. -/
structure ElemStats where
  count : Nat
  properties : List String
  materials : List String := []
  classifications : List String := []
deriving DecidableEq

/-- A generated requirement: an ids.Attribute with name and cardinality
or an ids.Property with baseName, propertySet and cardinality, each
carrying its instructions text. -/
inductive IdsRequirement where
  | attr (name cardinality instructions : String)
  | prop (baseName propertySet cardinality instructions : String)
deriving DecidableEq

/-- The cardinality carried by a generated requirement. -/
def reqCardinality : IdsRequirement → String
  | .attr _ c _ => c
  | .prop _ _ c _ => c

/-- A generated ids.Specification: name, description, instructions, the
applicability entity names and the appended requirements. -/
structure Specification where
  name : String
  description : String
  instructions : String
  applicability : List String
  requirements : List IdsRequirement
deriving DecidableEq

/-- Insert into a descending run: an element already in place stays
ahead of a later element with the same key, matching the stability of
the Python sorted builtin with reverse true. -/
def insertByCountDesc {α : Type} (key : α → Nat) (x : α) : List α → List α
  | [] => [x]
  | y :: ys => if key x ≤ key y then y :: insertByCountDesc key x ys else x :: y :: ys

/-- Stable sort, descending by the numeric key; the model of
sorted(items, key, reverse true). -/
def sortByCountDesc {α : Type} (key : α → Nat) (l : List α) : List α :=
  l.foldl (fun acc x => insertByCountDesc key x acc) []

/-- The Python max builtin with a key function over a nonempty
iteration: the first element with the maximal key wins; the empty case
(which raises in Python) returns the empty string and is guarded by the
caller. -/
def maxByKey (key : String → Nat) : List String → String
  | [] => ""
  | x :: xs => xs.foldl (fun best y => if key y > key best then y else best) x

/-- property_stats.get(x, default).get(count, 0): the usage count of a
property set name, zero when unknown. -/
def psetUsageCount (propertyStats : List (String × PsetStats)) (psetName : String) : Nat :=
  match alistLookup psetName propertyStats with
  | some info => info.count
  | none => 0

/-- The fixed structural set checked for the geometry requirement. -/
def structuralTypes : List String := ["IFCWALL", "IFCSLAB", "IFCBEAM", "IFCCOLUMN"]

/-- The specification built for one element type that passed the
minimum-count gate: a required Representation attribute when geometry
is enabled and the type is structural, then an optional any-property
requirement scoped to the most used of its property sets. -/
def mkElementSpec (includeGeometry : Bool) (propertyStats : List (String × PsetStats))
    (elementType : String) (stats : ElemStats) : Specification :=
  let reqs1 : List IdsRequirement :=
    if includeGeometry && structuralTypes.contains elementType then
      [.attr "Representation" "required" (elementType ++ " must have geometric representation")]
    else []
  let reqs2 :=
    if stats.properties ≠ [] then
      let commonPset := maxByKey (psetUsageCount propertyStats) stats.properties
      reqs1 ++ [.prop "*" commonPset "optional"
        ("Properties from " ++ commonPset ++ " should be provided where applicable")]
    else reqs1
  { name := elementType ++ " Requirements"
    description := "Requirements for " ++ elementType ++ " elements (found "
      ++ toString stats.count ++ " instances)"
    instructions := "All " ++ elementType ++ " elements must meet these requirements"
    applicability := [elementType]
    requirements := reqs2 }

/-- Loop body of _create_element_specifications: skip types with count
below 2, otherwise append the specification for the type. -/
def elemSpecStep (includeGeometry : Bool) (propertyStats : List (String × PsetStats))
    (acc : List Specification) (x : String × ElemStats) : List Specification :=
  if x.2.count < 2 then acc
  else acc ++ [mkElementSpec includeGeometry propertyStats x.1 x.2]

/-- _create_element_specifications over the accumulated element_stats. -/
def createElementSpecifications (includeGeometry : Bool)
    (elementStats : List (String × ElemStats)) (propertyStats : List (String × PsetStats)) :
    List Specification :=
  elementStats.foldl (elemSpecStep includeGeometry propertyStats) []

/-- One property requirement of a promoted set. The source compares
prop_info count against pset_info count times 0.5 in binary floating
point; for natural counts that comparison is exactly 2 times the
property count against the total. -/
def mkPropReq (psetName : String) (psetInfo : PsetStats)
    (propName : String) (propInfo : PsetPropInfo) : IdsRequirement :=
  .prop propName psetName
    (if 2 * propInfo.count < psetInfo.count then "optional" else "required")
    (propName ++ " should be consistently defined")

/-- Loop body over the critical properties: only a property counted at
least twice produces a requirement. -/
def critReqStep (psetName : String) (psetInfo : PsetStats)
    (acc : List IdsRequirement) (x : String × PsetPropInfo) : List IdsRequirement :=
  if 2 ≤ x.2.count then acc ++ [mkPropReq psetName psetInfo x.1 x.2] else acc

/-- The requirements of a promoted property set: the 3 most used
properties of the set, each kept only when counted at least twice. -/
def buildCriticalReqs (psetName : String) (psetInfo : PsetStats) : List IdsRequirement :=
  ((sortByCountDesc (fun x => x.2.count) psetInfo.properties).take 3).foldl
    (critReqStep psetName psetInfo) []

/-- The specification built for one promoted property set. -/
def mkPsetSpec (psetName : String) (psetInfo : PsetStats)
    (reqs : List IdsRequirement) : Specification :=
  { name := psetName ++ " Properties"
    description := "Property requirements for " ++ psetName
    instructions := "Elements with " ++ psetName ++ " must have consistent property definitions"
    applicability := psetInfo.elements
    requirements := reqs }

/-- Loop body of _create_property_specifications: skip sets with count
below 3 and discard a specification with zero resulting requirements. -/
def psetSpecStep (acc : List Specification) (x : String × PsetStats) : List Specification :=
  if x.2.count < 3 then acc
  else
    let reqs := buildCriticalReqs x.1 x.2
    if reqs ≠ [] then acc ++ [mkPsetSpec x.1 x.2 reqs] else acc

/-- _create_property_specifications: restrict to the 5 property sets
with the globally highest usage counts, then run the loop body. -/
def createPropertySpecifications (propertyStats : List (String × PsetStats)) :
    List Specification :=
  ((sortByCountDesc (fun x => x.2.count) propertyStats).take 5).foldl psetSpecStep []

/-! ## Match panel (ids_match_panel.py, SIMPLE_OT_match_ids lines 139
to 198) -/

/-- A flat tree node as stored in simple_tree_nodes. -/
structure TreeNode where
  name : String
  nodeKind : String
  level : Nat
  expanded : Bool := false
  hasChildren : Bool := false
deriving DecidableEq

/-- Outcome of the match operator: a reported IFC class, or one of the
three distinct error reports after which no match result is stored. -/
inductive MatchResult where
  | matched (ifcClass : String)
  | errNoSelection
  | errNoParent
  | errUnknownKind
deriving DecidableEq

/-- The predicate of the backward walk: a level 0 node whose stored
kind is Entity. -/
def isLevel0Entity (n : TreeNode) : Bool :=
  n.level == 0 && n.nodeKind == "Entity"

/-- The backward walk of _find_parent_entity: from index i minus one
down to zero, return the name of the first node satisfying the
predicate. -/
def findParentAux (nodes : List TreeNode) : Nat → Option String
  | 0 => none
  | j + 1 =>
    match nodes[j]? with
    | some n => if isLevel0Entity n then some n.name else findParentAux nodes j
    | none => findParentAux nodes j

/-- The match operator over the flat node sequence and the selected
index (an integer scene property, negative when nothing is selected). -/
def matchIds (nodes : List TreeNode) (selectedIdx : Int) : MatchResult :=
  if selectedIdx < 0 ∨ (nodes.length : Int) ≤ selectedIdx then .errNoSelection
  else
    match nodes[selectedIdx.toNat]? with
    | none => .errNoSelection
    | some node =>
      if node.nodeKind = "Entity" then .matched node.name
      else if node.nodeKind = "PropertySet" ∨ node.nodeKind = "Property" then
        match findParentAux nodes selectedIdx.toNat with
        | some parent => .matched parent
        | none => .errNoParent
      else .errUnknownKind

/-! ## Fetch panel connect fallback (ids_fetch_panel.py,
_fetch_bim_portal_models lines 90 to 121 and _get_mock_domain_models
lines 123 to 155) -/

/-- A catalog entry as delivered by the portal or the mock fallback. -/
structure DomainModel where
  guid : String
  name : String
  description : String
  domain : String
  version : String
deriving DecidableEq

/-- The fixed mock catalog returned when the portal is unreachable. -/
def getMockDomainModels : List DomainModel :=
  [{ guid := "12345678-1234-1234-1234-123456789abc"
     name := "Brandschutz Hochbau 2024"
     description := "Brandschutzanforderungen für Hochbauprojekte"
     domain := "Brandschutz"
     version := "2.1" },
   { guid := "87654321-4321-4321-4321-cba987654321"
     name := "Barrierefreiheit DIN 18040"
     description := "Barrierefreie Gestaltung nach DIN 18040"
     domain := "Barrierefreiheit"
     version := "1.5" },
   { guid := "abcdef12-3456-7890-abcd-ef1234567890"
     name := "DB InfraGO Eisenbahnbrücken"
     description := "Deutsche Bahn Standards für Eisenbahnbrücken"
     domain := "Infrastruktur"
     version := "3.0" },
   { guid := "fedcba98-7654-3210-fedc-ba9876543210"
     name := "Nachhaltigkeit DGNB"
     description := "DGNB Nachhaltigkeitsanforderungen"
     domain := "Nachhaltigkeit"
     version := "1.2" }]

/-- _fetch_bim_portal_models with the network interaction made
explicit: a successful response yields the decoded model list, any
request failure is caught and answered with the mock catalog. -/
def fetchBimPortalModels (response : Except String (List DomainModel)) :
    List DomainModel :=
  match response with
  | .ok models => models
  | .error _ => getMockDomainModels

/-! ## Recipe argument handling (ifc2ids_recipe.py, execute lines 446
to 470 and the standalone entry lines 473 to 503) -/

/-- Python bool applied to a string: truthy exactly when nonempty. -/
def pyTruthyString (s : String) : Bool := s != ""

/-- include_geometry as computed by execute from the positional
argument list: bool of the second argument when present, False
otherwise. -/
def executeIncludeGeometry (arguments : List String) : Bool :=
  match arguments[1]? with
  | some a => pyTruthyString a
  | none => false

/-- The Python str.lower method restricted to ASCII letters, as needed
for the literal comparison against the word true. -/
def pyLower (s : String) : String :=
  String.mk (s.data.map Char.toLower)

/-- include_geom as computed by the standalone entry from sys.argv: the
lowered fourth argv entry compared with the literal true when present,
False otherwise. -/
def mainIncludeGeometry (argv : List String) : Bool :=
  match argv[3]? with
  | some a => pyLower a == "true"
  | none => false

example : parseIds [⟨"S", some [⟨"IFCWALL", "SOLIDWALL"⟩], some []⟩]
    = ([("IFCWALL.SOLIDWALL", ⟨"S", []⟩)], []) := by decide

example : handleReplaceValues (.int 2) [("2", "3")] = (.int 3, false) := by decide

example : processIfcOutputPath "a.ifc.ifc" = "a_fixed.ifc_fixed.ifc" := by decide

example : matchIds [⟨"IFCWALL", "Entity", 0, false, true⟩,
    ⟨"Pset_WallCommon", "PropertySet", 1, false, true⟩,
    ⟨"LoadBearing", "Property", 2, false, false⟩] 2 = .matched "IFCWALL" := by decide

example : (fetchBimPortalModels (.error "timeout")).map DomainModel.name
    = ["Brandschutz Hochbau 2024", "Barrierefreiheit DIN 18040",
       "DB InfraGO Eisenbahnbrücken", "Nachhaltigkeit DGNB"] := by decide

example : executeIncludeGeometry ["output.ids", "false"] = true := by decide

example : mainIncludeGeometry ["ifc2ids_recipe.py", "in.ifc", "o.ids", "False"] = false := by
  decide

/-- Sample patch configuration for claim C9: value replacements under
the old name Old and different ones under the new name New. -/
def c9ConfigSample : List (String × PropConfig) :=
  [("Old", { replaceName := some "New", replaceValues := some [("2", "3")] }),
   ("New", { replaceName := none, replaceValues := some [("2", "99")] })]

/-- The three-node sequence of claim C7, used by its witness. -/
def c7NodesSample : List TreeNode :=
  [⟨"IFCWALL", "Entity", 0, false, true⟩,
   ⟨"Pset_WallCommon", "PropertySet", 1, false, true⟩,
   ⟨"LoadBearing", "Property", 2, false, false⟩]

/-- Sample analyzer statistics used by the concrete witnesses: one
property set used 10 times holding a property counted 6 times and one
counted 4 times. -/
def samplePsetStats : List (String × PsetStats) :=
  [("Pset_X",
    { elements := ["IFCWALL"]
      properties := [("P6", { count := 6 }), ("P4", { count := 4 })]
      count := 10 })]

/-- Sample element statistics used by the concrete witnesses. -/
def sampleElemStats : List (String × ElemStats) :=
  [("IFCWALL", { count := 2, properties := ["Pset_X"] })]

/-- The specification the generation pass produces from the sample
property-set statistics. -/
def sampleGeneratedPsetSpec : Specification :=
  { name := "Pset_X Properties"
    description := "Property requirements for Pset_X"
    instructions := "Elements with Pset_X must have consistent property definitions"
    applicability := ["IFCWALL"]
    requirements :=
      [.prop "P6" "Pset_X" "required" "P6 should be consistently defined",
       .prop "P4" "Pset_X" "optional" "P4 should be consistently defined"] }

example : createPropertySpecifications samplePsetStats
    = [{ name := "Pset_X Properties"
         description := "Property requirements for Pset_X"
         instructions := "Elements with Pset_X must have consistent property definitions"
         applicability := ["IFCWALL"]
         requirements :=
           [.prop "P6" "Pset_X" "required" "P6 should be consistently defined",
            .prop "P4" "Pset_X" "optional" "P4 should be consistently defined"] }] := by
  decide

example : (createElementSpecifications false sampleElemStats samplePsetStats).length = 1 := by
  decide

example : createElementSpecifications false [("IFCDOOR", { count := 1, properties := [] })]
    samplePsetStats = [] := by decide

/-- Claim C1, counterexample: two specifications sharing the entity key
IFCWALL, the later one carrying a fresh property set. The pre-existing
entry is not retained unchanged: parsing both specifications changes
the entry relative to parsing the first alone, because the later
specification merges its property set P2 into the properties sub-map
(while the stored specification name stays the first one, A). -/
theorem claim_C1_counterexample :
    alistLookup "IFCWALL"
        (parseIds [⟨"A", some [⟨"IFCWALL", ""⟩], some [⟨"P1", "B1"⟩]⟩,
                   ⟨"B", some [⟨"IFCWALL", ""⟩], some [⟨"P2", "B2"⟩]⟩]).1
      ≠ alistLookup "IFCWALL"
          (parseIds [⟨"A", some [⟨"IFCWALL", ""⟩], some [⟨"P1", "B1"⟩]⟩]).1
    ∧ alistLookup "IFCWALL"
        (parseIds [⟨"A", some [⟨"IFCWALL", ""⟩], some [⟨"P1", "B1"⟩]⟩,
                   ⟨"B", some [⟨"IFCWALL", ""⟩], some [⟨"P2", "B2"⟩]⟩]).1
      = some ⟨"A", [("P1", ["B1"]), ("P2", ["B2"])]⟩ := by
  exact ⟨by decide, by decide⟩

/-- Claim C1 (amended): when a later specification produces an entity
key that already exists, a duplicate warning is emitted and processing
continues, and the entry keeps the first-seen specification name (the
later name is dropped); however the entry is not left unchanged: the
property requirements of the later specification are merged into its
properties sub-map (new property sets and base names are appended). -/
theorem claim_C1_thm (n1 n2 nm pt ps1 b1 ps2 b2 : String)
    (hps1 : ps1 ≠ "") (hps2 : ps2 ≠ "") (hb1 : b1 ≠ "") (hb2 : b2 ≠ "")
    (hne : ps1 ≠ ps2) :
    parseIds [⟨n1, some [⟨nm, pt⟩], some [⟨ps1, b1⟩]⟩,
              ⟨n2, some [⟨nm, pt⟩], some [⟨ps2, b2⟩]⟩]
      = ([(entityKey ⟨nm, pt⟩, ⟨n1, [(ps1, [b1]), (ps2, [b2])]⟩)],
         [entityKey ⟨nm, pt⟩]) := by
  simp [parseIds, processSpec, processEntity, addPropertyReq, alistLookup, alistUpdate,
    hps1, hps2, hb1, hb2, hne, Ne.symm hne]

/-- Witness for the amended statement of claim C1 at concrete inputs. -/
theorem claim_C1_witness :
    parseIds [⟨"A", some [⟨"IFCWALL", ""⟩], some [⟨"P1", "B1"⟩]⟩,
              ⟨"B", some [⟨"IFCWALL", ""⟩], some [⟨"P2", "B2"⟩]⟩]
      = ([(entityKey ⟨"IFCWALL", ""⟩, ⟨"A", [("P1", ["B1"]), ("P2", ["B2"])]⟩)],
         [entityKey ⟨"IFCWALL", ""⟩]) :=
  claim_C1_thm "A" "B" "IFCWALL" "" "P1" "B1" "P2" "B2"
    (by decide) (by decide) (by decide) (by decide) (by decide)

/-- Claim C6: the Entity Requirement Map key produced for an
applicability entity is the entity name alone when the predefined type
is empty and name.predefinedType when a nonempty one is present; in
particular IFCWALL with SOLIDWALL yields exactly IFCWALL.SOLIDWALL and
IFCWALL without a predefined type yields exactly IFCWALL. -/
theorem claim_C6_thm (sname nm pt : String) :
    ((parseIds [⟨sname, some [⟨nm, pt⟩], some []⟩]).1.map Prod.fst
      = [if pt = "" then nm else nm ++ "." ++ pt])
    ∧ (parseIds [⟨sname, some [⟨"IFCWALL", "SOLIDWALL"⟩], some []⟩]).1.map Prod.fst
      = ["IFCWALL.SOLIDWALL"]
    ∧ (parseIds [⟨sname, some [⟨"IFCWALL", ""⟩], some []⟩]).1.map Prod.fst
      = ["IFCWALL"] := by
  refine ⟨?_, ?_, ?_⟩
  · by_cases h : pt = "" <;>
      simp [parseIds, processSpec, processEntity, entityKey, alistLookup, alistUpdate, h]
  · simp [parseIds, processSpec, processEntity, entityKey, alistLookup, alistUpdate]
  · simp [parseIds, processSpec, processEntity, entityKey, alistLookup, alistUpdate]

/-- The replace_values loop never changes the stored literal when the
original value matches no successfully coerced old value. -/
theorem replaceValuesGo_fst_of_no_match (v : PyVal) :
    ∀ (pairs : List (String × String)) (stored : PyVal),
      (∀ old nw ov, (old, nw) ∈ pairs → coercePy v old = some ov → pyEq v ov = false) →
      (replaceValuesGo v pairs stored).1 = stored := by
  intro pairs
  induction pairs with
  | nil => intro stored _; rfl
  | cons hd rest ih =>
    intro stored h
    obtain ⟨old, nw⟩ := hd
    simp only [replaceValuesGo]
    cases hc : coercePy v old with
    | none => rfl
    | some ov =>
      have hne := h old nw ov (List.mem_cons_self _ _) hc
      simp only [hne, Bool.false_eq_true, if_false]
      exact ih stored (fun o n w hm hcc => h o n w (List.mem_cons_of_mem _ hm) hcc)

/-- Claim C2: a property holding the integer 2 configured with the
replace_values map sending the string 2 to the string 3 is rewritten to
the integer 3 (both entries coerced to the runtime type of the current
value), and a property whose current value equals no coerced old value
keeps its literal unchanged. -/
theorem claim_C2_thm :
    handleReplaceValues (PyVal.int 2) [("2", "3")] = (PyVal.int 3, false)
    ∧ ∀ (v : PyVal) (pairs : List (String × String)),
      (∀ old nw ov, (old, nw) ∈ pairs → coercePy v old = some ov → pyEq v ov = false) →
      (handleReplaceValues v pairs).1 = v := by
  refine ⟨by decide, ?_⟩
  intro v pairs h
  exact replaceValuesGo_fst_of_no_match v pairs v h

/-- Witness for the no-match clause of claim C2 at a concrete input. -/
theorem claim_C2_witness :
    (∀ old nw ov, (old, nw) ∈ [("y", "z")] →
      coercePy (PyVal.str "x") old = some ov → pyEq (PyVal.str "x") ov = false)
    ∧ (handleReplaceValues (PyVal.str "x") [("y", "z")]).1 = PyVal.str "x" := by
  have hyp : ∀ old nw ov, (old, nw) ∈ [("y", "z")] →
      coercePy (PyVal.str "x") old = some ov → pyEq (PyVal.str "x") ov = false := by
    intro old nw ov hm hc
    have hon : old = "y" ∧ nw = "z" := by simpa using hm
    obtain ⟨rfl, rfl⟩ := hon
    simp only [coercePy, Option.some.injEq] at hc
    subst hc
    decide
  exact ⟨hyp, claim_C2_thm.2 (PyVal.str "x") [("y", "z")] hyp⟩

/-- Claim C9: when the looked-up configuration of the original property
name carries both a replacement name and a replace_values map, the
rename is applied and the value replacement still runs from that same
original-name configuration, so the result is fully determined by the
pre-rename lookup. -/
theorem claim_C9_thm (p : PropSingleValue) (pv : List (String × PropConfig))
    (cfg : PropConfig) (nn : String) (pairs : List (String × String)) (v : PyVal)
    (hlook : alistLookup p.name pv = some cfg)
    (hrn : cfg.replaceName = some nn)
    (hrv : cfg.replaceValues = some pairs)
    (hsv : p.isSingleValue = true)
    (hnv : p.nominalValue = some v) :
    handle_property_single_value p pv
      = ({ name := nn, isSingleValue := true,
           nominalValue := some (handleReplaceValues v pairs).1 },
         (handleReplaceValues v pairs).2) := by
  simp [handle_property_single_value, hlook, hrn, hrv, hsv, hnv]

/-- Witness for claim C9: the renamed property takes the old-name
replacement (3), not the value (99) that the new-name configuration
would have produced. -/
theorem claim_C9_witness :
    handle_property_single_value ⟨"Old", true, some (PyVal.int 2)⟩ c9ConfigSample
      = (⟨"New", true, some (PyVal.int 3)⟩, false)
    ∧ (handleReplaceValues (PyVal.int 2) [("2", "99")]).1 = PyVal.int 99 := by
  refine ⟨?_, by decide⟩
  rw [claim_C9_thm ⟨"Old", true, some (PyVal.int 2)⟩ c9ConfigSample
    ⟨some "New", some [("2", "3")]⟩ "New" [("2", "3")] (PyVal.int 2)
    (by decide) rfl rfl rfl rfl]
  decide

/-- Skipping as many characters as the list holds consumes it whole. -/
theorem pyRepAux_skip_all (pat rep : List Char) :
    ∀ l : List Char, pyRepAux pat rep l l.length = [] := by
  intro l
  induction l with
  | nil => rfl
  | cons c rest ih => simpa [pyRepAux] using ih

/-- A list is a prefix of itself under the boolean prefix test. -/
theorem isPrefixOf_self (l : List Char) : l.isPrefixOf l = true := by
  induction l with
  | nil => rfl
  | cons c rest ih => simp [List.isPrefixOf, ih]

/-- The replace scan over a text that ends with the pattern and holds
no earlier occurrence rewrites exactly the final occurrence. -/
theorem pyRepAux_append_pat (pat rep : List Char) (hpat : pat ≠ []) :
    ∀ stem : List Char,
      (∀ i, i < stem.length → pat.isPrefixOf ((stem ++ pat).drop i) = false) →
      pyRepAux pat rep (stem ++ pat) 0 = stem ++ rep := by
  intro stem
  induction stem with
  | nil =>
    intro _
    rcases pat with _ | ⟨c, ps⟩
    · exact absurd rfl hpat
    · simp only [List.nil_append, pyRepAux, isPrefixOf_self, if_true]
      have : pyRepAux (c :: ps) rep ps ps.length = [] := pyRepAux_skip_all _ _ ps
      simp [this]
  | cons c rest ih =>
    intro h
    have h0 : pat.isPrefixOf (c :: (rest ++ pat)) = false := by
      have := h 0 (Nat.succ_pos _)
      simpa using this
    have hrest : ∀ i, i < rest.length → pat.isPrefixOf ((rest ++ pat).drop i) = false := by
      intro i hi
      have := h (i + 1) (by simpa using Nat.succ_lt_succ hi)
      simpa using this
    simp only [List.cons_append, pyRepAux]
    rw [if_neg (by simp [h0])]
    exact congrArg (c :: ·) (ih hrest)

/-- Claim C3, counterexample: the input a.ifc.ifc ends in .ifc, yet the
output path of the engine is not the sibling path obtained by replacing only
the .ifc suffix, because the Python replace call rewrites every
occurrence. -/
theorem claim_C3_counterexample :
    processIfcOutputPath "a.ifc.ifc" ≠ specSiblingOutputPath "a.ifc.ifc"
    ∧ "a.ifc.ifc".data = "a.ifc".data ++ ".ifc".data
    ∧ processIfcOutputPath "a.ifc.ifc" = "a_fixed.ifc_fixed.ifc"
    ∧ specSiblingOutputPath "a.ifc.ifc" = "a.ifc_fixed.ifc" :=
  ⟨by decide, by decide, by decide, by decide⟩

/-- Claim C3 (amended): for every input path ending in .ifc in which
.ifc occurs nowhere except as that final suffix, the engine serializes
to the sibling path with the suffix replaced by _fixed.ifc; in general
the engine replaces every occurrence of .ifc in the path. -/
theorem claim_C3_thm (stem : List Char)
    (h : ∀ i, i < stem.length →
      (".ifc".data.isPrefixOf ((stem ++ ".ifc".data).drop i)) = false) :
    processIfcOutputPath (String.mk (stem ++ ".ifc".data))
      = String.mk (stem ++ "_fixed.ifc".data) :=
  congrArg String.mk (pyRepAux_append_pat ".ifc".data "_fixed.ifc".data (by decide) stem h)

/-- Witness for claim C3 at the concrete input model.ifc. -/
theorem claim_C3_witness :
    (∀ i, i < "model".data.length →
      (".ifc".data.isPrefixOf (("model".data ++ ".ifc".data).drop i)) = false)
    ∧ processIfcOutputPath (String.mk ("model".data ++ ".ifc".data))
      = String.mk ("model".data ++ "_fixed.ifc".data) :=
  ⟨by decide, claim_C3_thm "model".data (by decide)⟩

/-- The backward walk returns the nearest preceding node satisfying the
level 0 Entity predicate. -/
theorem findParentAux_eq_some (nodes : List TreeNode) :
    ∀ (i j : Nat) (nj : TreeNode), j < i → nodes[j]? = some nj →
      isLevel0Entity nj = true →
      (∀ k nk, j < k → k < i → nodes[k]? = some nk → isLevel0Entity nk = false) →
      findParentAux nodes i = some nj.name := by
  intro i
  induction i with
  | zero => intro j nj hj; exact absurd hj (Nat.not_lt_zero j)
  | succ m ih =>
    intro j nj hj hsome hpred hmax
    rcases Nat.lt_succ_iff_lt_or_eq.mp hj with hjm | rfl
    · simp only [findParentAux]
      cases hm : nodes[m]? with
      | none =>
        exact ih j nj hjm hsome hpred
          (fun k nk h1 h2 => hmax k nk h1 (Nat.lt_succ_of_lt h2))
      | some nk =>
        show (if isLevel0Entity nk = true then some nk.name else findParentAux nodes m)
          = some nj.name
        rw [if_neg (by simp [hmax m nk hjm (Nat.lt_succ_self m) hm])]
        exact ih j nj hjm hsome hpred
          (fun k nk h1 h2 => hmax k nk h1 (Nat.lt_succ_of_lt h2))
    · simp only [findParentAux, hsome]
      rw [if_pos hpred]

/-- When no preceding node satisfies the predicate the backward walk
returns nothing. -/
theorem findParentAux_eq_none (nodes : List TreeNode) :
    ∀ i, (∀ j nj, j < i → nodes[j]? = some nj → isLevel0Entity nj = false) →
      findParentAux nodes i = none := by
  intro i
  induction i with
  | zero => intro _; rfl
  | succ m ih =>
    intro h
    simp only [findParentAux]
    cases hm : nodes[m]? with
    | none => exact ih (fun j nj h1 => h j nj (Nat.lt_succ_of_lt h1))
    | some nk =>
      show (if isLevel0Entity nk = true then some nk.name else findParentAux nodes m) = none
      rw [if_neg (by simp [h m nk (Nat.lt_succ_self m) hm])]
      exact ih (fun j nj h1 => h j nj (Nat.lt_succ_of_lt h1))

/-- Claim C7: selecting an Entity node reports the name of that node; a
PropertySet or Property node resolves to the nearest preceding level 0
Entity node of the flat sequence; with no selection or no preceding
Entity a distinct error is reported and no match result is produced. -/
theorem claim_C7_thm (nodes : List TreeNode) (idx : Int) :
    ((idx < 0 ∨ (nodes.length : Int) ≤ idx) →
      matchIds nodes idx = MatchResult.errNoSelection)
    ∧ (∀ node, 0 ≤ idx → nodes[idx.toNat]? = some node →
        (node.nodeKind = "Entity" → matchIds nodes idx = .matched node.name)
        ∧ ((node.nodeKind = "PropertySet" ∨ node.nodeKind = "Property") →
            (∀ j nj, j < idx.toNat → nodes[j]? = some nj → isLevel0Entity nj = true →
              (∀ k nk, j < k → k < idx.toNat → nodes[k]? = some nk →
                isLevel0Entity nk = false) →
              matchIds nodes idx = .matched nj.name)
            ∧ ((∀ j nj, j < idx.toNat → nodes[j]? = some nj →
                  isLevel0Entity nj = false) →
                matchIds nodes idx = .errNoParent))) := by
  constructor
  · intro h
    simp only [matchIds]
    rw [if_pos h]
  · intro node hge hsome
    have hlt : idx.toNat < nodes.length := (List.getElem?_eq_some.mp hsome).1
    have hcon : ¬ (idx < 0 ∨ (nodes.length : Int) ≤ idx) := by omega
    refine ⟨?_, ?_⟩
    · intro hk
      simp only [matchIds, hsome]
      rw [if_neg hcon, if_pos hk]
    · intro hk
      have hkne : ¬ node.nodeKind = "Entity" := by
        rcases hk with h | h <;> rw [h] <;> decide
      constructor
      · intro j nj hj hsome2 hpred hmax
        simp only [matchIds, hsome]
        rw [if_neg hcon, if_neg hkne, if_pos hk,
          findParentAux_eq_some nodes idx.toNat j nj hj hsome2 hpred hmax]
      · intro hnone
        simp only [matchIds, hsome]
        rw [if_neg hcon, if_neg hkne, if_pos hk,
          findParentAux_eq_none nodes idx.toNat hnone]

/-- Witness for claim C7: selecting the Property node resolves to
IFCWALL, and the no-selection index reports the selection error. -/
theorem claim_C7_witness :
    matchIds c7NodesSample 2 = MatchResult.matched "IFCWALL"
    ∧ matchIds c7NodesSample (-1) = MatchResult.errNoSelection :=
  ⟨((claim_C7_thm c7NodesSample 2).2 ⟨"LoadBearing", "Property", 2, false, false⟩
      (by decide) (by decide)).2 (Or.inr rfl)
      |>.1 0 ⟨"IFCWALL", "Entity", 0, false, true⟩ (by decide) (by decide) (by decide)
      (by
        intro k nk h1 h2 h3
        have hk1 : k = 1 := by omega
        subst hk1
        have h5 : some (⟨"Pset_WallCommon", "PropertySet", 1, false, true⟩ : TreeNode)
            = some nk := h3
        injection h5 with h6
        subst h6
        decide),
   (claim_C7_thm c7NodesSample (-1)).1 (by decide)⟩

/-- Claim C8: whenever the model-list request fails, the connect action
falls back to exactly the 4 mock models with the literal names in
order. -/
theorem claim_C8_thm (err : String) :
    (fetchBimPortalModels (.error err)).map DomainModel.name
      = ["Brandschutz Hochbau 2024", "Barrierefreiheit DIN 18040",
         "DB InfraGO Eisenbahnbrücken", "Nachhaltigkeit DGNB"]
    ∧ (fetchBimPortalModels (.error err)).length = 4 :=
  ⟨rfl, rfl⟩

/-- Claim C10: execute computes include_geometry by truthiness of the
second positional argument, so every nonempty string (the string false
included) turns it on, while the standalone command line form treats
exactly the case-insensitively lowered literal true as true. -/
theorem claim_C10_thm :
    (∀ (args : List String) (a : String), args[1]? = some a → a ≠ "" →
      executeIncludeGeometry args = true)
    ∧ executeIncludeGeometry ["output.ids", "false"] = true
    ∧ mainIncludeGeometry ["ifc2ids_recipe.py", "input.ifc", "output.ids", "false"] = false
    ∧ (∀ (argv : List String) (a : String), argv[3]? = some a →
        (mainIncludeGeometry argv = true ↔ pyLower a = "true")) := by
  refine ⟨?_, by decide, by decide, ?_⟩
  · intro args a h1 h2
    simp [executeIncludeGeometry, h1, pyTruthyString, h2]
  · intro argv a h
    simp [mainIncludeGeometry, h]

/-- Witness for claim C10 at concrete argument lists. -/
theorem claim_C10_witness :
    (["output.ids", "x"][1]? = some "x" ∧ "x" ≠ "")
    ∧ executeIncludeGeometry ["output.ids", "x"] = true
    ∧ ["p", "i", "o", "TRUE"][3]? = some "TRUE"
    ∧ (mainIncludeGeometry ["p", "i", "o", "TRUE"] = true ↔ pyLower "TRUE" = "true") :=
  ⟨⟨by decide, by decide⟩,
   claim_C10_thm.1 ["output.ids", "x"] "x" (by decide) (by decide),
   by decide,
   claim_C10_thm.2.2.2 ["p", "i", "o", "TRUE"] "TRUE" (by decide)⟩

/-- Inserting into a descending run adds exactly the new element. -/
theorem mem_insertByCountDesc {α : Type} (key : α → Nat) (x a : α) :
    ∀ l : List α, a ∈ insertByCountDesc key x l ↔ a = x ∨ a ∈ l := by
  intro l
  induction l with
  | nil => simp [insertByCountDesc]
  | cons y ys ih =>
    simp only [insertByCountDesc]
    by_cases h : key x ≤ key y
    · rw [if_pos h]
      simp only [List.mem_cons, ih]
      tauto
    · rw [if_neg h]
      simp only [List.mem_cons]

/-- The stable descending sort is a permutation in the membership
sense. -/
theorem mem_sortByCountDesc_aux {α : Type} (key : α → Nat) (a : α) :
    ∀ (l acc : List α),
      a ∈ l.foldl (fun acc x => insertByCountDesc key x acc) acc ↔ a ∈ acc ∨ a ∈ l := by
  intro l
  induction l with
  | nil => intro acc; simp
  | cons x xs ih =>
    intro acc
    simp only [List.foldl_cons]
    rw [ih, mem_insertByCountDesc]
    simp only [List.mem_cons]
    tauto

/-- Membership is preserved by the stable descending sort. -/
theorem mem_sortByCountDesc {α : Type} (key : α → Nat) (l : List α) (a : α) :
    a ∈ sortByCountDesc key l ↔ a ∈ l := by
  rw [sortByCountDesc, mem_sortByCountDesc_aux]
  simp

/-- Every requirement accumulated by the critical-property loop comes
from a loop element counted at least twice. -/
theorem mem_foldl_critReqStep (pn : String) (info : PsetStats) :
    ∀ (l : List (String × PsetPropInfo)) (acc : List IdsRequirement) (r : IdsRequirement),
      r ∈ l.foldl (critReqStep pn info) acc →
      r ∈ acc ∨ ∃ x, x ∈ l ∧ 2 ≤ x.2.count ∧ r = mkPropReq pn info x.1 x.2 := by
  intro l
  induction l with
  | nil => intro acc r h; exact Or.inl h
  | cons y ys ih =>
    intro acc r h
    simp only [List.foldl_cons] at h
    rcases ih (critReqStep pn info acc y) r h with h1 | ⟨x, hx, hc, hr⟩
    · unfold critReqStep at h1
      by_cases hy : 2 ≤ y.2.count
      · rw [if_pos hy] at h1
        rcases List.mem_append.mp h1 with h2 | h2
        · exact Or.inl h2
        · exact Or.inr ⟨y, List.mem_cons_self _ _, hy, by simpa using h2⟩
      · rw [if_neg hy] at h1
        exact Or.inl h1
    · exact Or.inr ⟨x, List.mem_cons_of_mem _ hx, hc, hr⟩

/-- Every specification accumulated by the property-set loop comes from
a loop element with count at least 3 and nonempty requirements. -/
theorem mem_foldl_psetSpecStep :
    ∀ (l : List (String × PsetStats)) (acc : List Specification) (s : Specification),
      s ∈ l.foldl psetSpecStep acc →
      s ∈ acc ∨ ∃ x, x ∈ l ∧ 3 ≤ x.2.count ∧ buildCriticalReqs x.1 x.2 ≠ []
        ∧ s = mkPsetSpec x.1 x.2 (buildCriticalReqs x.1 x.2) := by
  intro l
  induction l with
  | nil => intro acc s h; exact Or.inl h
  | cons y ys ih =>
    intro acc s h
    simp only [List.foldl_cons] at h
    rcases ih (psetSpecStep acc y) s h with h1 | ⟨x, hx, hc, hne, hs⟩
    · unfold psetSpecStep at h1
      by_cases hy : y.2.count < 3
      · rw [if_pos hy] at h1
        exact Or.inl h1
      · rw [if_neg hy] at h1
        by_cases hr : buildCriticalReqs y.1 y.2 ≠ []
        · rw [if_pos hr] at h1
          rcases List.mem_append.mp h1 with h2 | h2
          · exact Or.inl h2
          · exact Or.inr ⟨y, List.mem_cons_self _ _, Nat.not_lt.mp hy, hr, by simpa using h2⟩
        · rw [if_neg hr] at h1
          exact Or.inl h1
    · exact Or.inr ⟨x, List.mem_cons_of_mem _ hx, hc, hne, hs⟩

/-- Every specification accumulated by the element-type loop comes from
a loop element counted at least twice. -/
theorem mem_foldl_elemSpecStep (ig : Bool) (ps : List (String × PsetStats)) :
    ∀ (l : List (String × ElemStats)) (acc : List Specification) (s : Specification),
      s ∈ l.foldl (elemSpecStep ig ps) acc →
      s ∈ acc ∨ ∃ x, x ∈ l ∧ 2 ≤ x.2.count ∧ s = mkElementSpec ig ps x.1 x.2 := by
  intro l
  induction l with
  | nil => intro acc s h; exact Or.inl h
  | cons y ys ih =>
    intro acc s h
    simp only [List.foldl_cons] at h
    rcases ih (elemSpecStep ig ps acc y) s h with h1 | ⟨x, hx, hc, hs⟩
    · unfold elemSpecStep at h1
      by_cases hy : y.2.count < 2
      · rw [if_pos hy] at h1
        exact Or.inl h1
      · rw [if_neg hy] at h1
        rcases List.mem_append.mp h1 with h2 | h2
        · exact Or.inl h2
        · exact Or.inr ⟨y, List.mem_cons_self _ _, Nat.not_lt.mp hy, by simpa using h2⟩
    · exact Or.inr ⟨x, List.mem_cons_of_mem _ hx, hc, hs⟩

/-- Claim C5: the generation pass never creates an element-type
specification for a type counted below 2; it promotes only property
sets among the 5 with the globally highest usage counts that are used
at least 3 times; and within a promoted set every requirement comes
from one of the 3 most-used properties of the set counted at least
twice. -/
theorem claim_C5_thm (includeGeometry : Bool) (elementStats : List (String × ElemStats))
    (propertyStats : List (String × PsetStats)) :
    (∀ spec, spec ∈ createElementSpecifications includeGeometry elementStats propertyStats →
      ∃ et st, (et, st) ∈ elementStats ∧ 2 ≤ st.count
        ∧ spec = mkElementSpec includeGeometry propertyStats et st)
    ∧ (∀ spec, spec ∈ createPropertySpecifications propertyStats →
        ∃ pn info, (pn, info) ∈ (sortByCountDesc (fun x => x.2.count) propertyStats).take 5
          ∧ (pn, info) ∈ propertyStats ∧ 3 ≤ info.count
          ∧ spec = mkPsetSpec pn info (buildCriticalReqs pn info)
          ∧ ∀ req, req ∈ spec.requirements →
              ∃ qn qi,
                (qn, qi) ∈ (sortByCountDesc (fun x => x.2.count) info.properties).take 3
                ∧ (qn, qi) ∈ info.properties ∧ 2 ≤ qi.count) := by
  constructor
  · intro spec h
    rcases mem_foldl_elemSpecStep includeGeometry propertyStats elementStats [] spec h with
      h1 | ⟨x, hx, hc, hs⟩
    · simp at h1
    · exact ⟨x.1, x.2, by simpa using hx, hc, hs⟩
  · intro spec h
    rcases mem_foldl_psetSpecStep _ [] spec h with h1 | ⟨x, hx, hc, hne, hs⟩
    · simp at h1
    · refine ⟨x.1, x.2, by simpa using hx, ?_, hc, hs, ?_⟩
      · have h2 : x ∈ sortByCountDesc (fun y => y.2.count) propertyStats :=
          List.take_subset _ _ hx
        have h3 := (mem_sortByCountDesc _ _ _).mp h2
        simpa using h3
      · intro req hreq
        rw [hs] at hreq
        have hreq2 : req ∈ buildCriticalReqs x.1 x.2 := by simpa [mkPsetSpec] using hreq
        unfold buildCriticalReqs at hreq2
        rcases mem_foldl_critReqStep x.1 x.2 _ [] req hreq2 with h4 | ⟨y, hy, hyc, hyr⟩
        · simp at h4
        · refine ⟨y.1, y.2, by simpa using hy, ?_, hyc⟩
          have h5 : y ∈ sortByCountDesc (fun z => z.2.count) x.2.properties :=
            List.take_subset _ _ hy
          have h6 := (mem_sortByCountDesc _ _ _).mp h5
          simpa using h6

/-- Witness for claim C5 at the sample statistics. -/
theorem claim_C5_witness :
    (mkElementSpec false samplePsetStats "IFCWALL" { count := 2, properties := ["Pset_X"] }
        ∈ createElementSpecifications false sampleElemStats samplePsetStats
      ∧ sampleGeneratedPsetSpec ∈ createPropertySpecifications samplePsetStats)
    ∧ (∃ et st, (et, st) ∈ sampleElemStats ∧ 2 ≤ st.count
        ∧ mkElementSpec false samplePsetStats "IFCWALL" { count := 2, properties := ["Pset_X"] }
          = mkElementSpec false samplePsetStats et st)
    ∧ (∃ pn info,
        (pn, info) ∈ (sortByCountDesc (fun x => x.2.count) samplePsetStats).take 5
        ∧ (pn, info) ∈ samplePsetStats ∧ 3 ≤ info.count
        ∧ sampleGeneratedPsetSpec = mkPsetSpec pn info (buildCriticalReqs pn info)
        ∧ ∀ req, req ∈ sampleGeneratedPsetSpec.requirements →
            ∃ qn qi,
              (qn, qi) ∈ (sortByCountDesc (fun x => x.2.count) info.properties).take 3
              ∧ (qn, qi) ∈ info.properties ∧ 2 ≤ qi.count) :=
  ⟨⟨by decide, by decide⟩,
   (claim_C5_thm false sampleElemStats samplePsetStats).1
     (mkElementSpec false samplePsetStats "IFCWALL" { count := 2, properties := ["Pset_X"] })
     (by decide),
   (claim_C5_thm false sampleElemStats samplePsetStats).2 sampleGeneratedPsetSpec (by decide)⟩

/-- Claim C4: every property requirement emitted by the property-set
generation carries cardinality required exactly when twice the
count of the property reaches the total usage count of the set (that is, the
count is at least 50 percent of the total), and optional otherwise. -/
theorem claim_C4_thm (propertyStats : List (String × PsetStats)) (spec : Specification)
    (req : IdsRequirement)
    (hspec : spec ∈ createPropertySpecifications propertyStats)
    (hreq : req ∈ spec.requirements) :
    ∃ pn info qn qi, (pn, info) ∈ propertyStats ∧ (qn, qi) ∈ info.properties
      ∧ 2 ≤ qi.count ∧ req = mkPropReq pn info qn qi
      ∧ (reqCardinality req = "required" ↔ info.count ≤ 2 * qi.count)
      ∧ (reqCardinality req = "optional" ↔ 2 * qi.count < info.count) := by
  rcases mem_foldl_psetSpecStep _ [] spec hspec with h1 | ⟨x, hx, hc, hne, hs⟩
  · simp at h1
  · have hxps : (x.1, x.2) ∈ propertyStats := by
      have h2 : x ∈ sortByCountDesc (fun y => y.2.count) propertyStats :=
        List.take_subset _ _ hx
      have h3 := (mem_sortByCountDesc _ _ _).mp h2
      simpa using h3
    rw [hs] at hreq
    have hreq2 : req ∈ buildCriticalReqs x.1 x.2 := by simpa [mkPsetSpec] using hreq
    unfold buildCriticalReqs at hreq2
    rcases mem_foldl_critReqStep x.1 x.2 _ [] req hreq2 with h4 | ⟨y, hy, hyc, hyr⟩
    · simp at h4
    · have hyprops : (y.1, y.2) ∈ x.2.properties := by
        have h5 : y ∈ sortByCountDesc (fun z => z.2.count) x.2.properties :=
          List.take_subset _ _ hy
        have h6 := (mem_sortByCountDesc _ _ _).mp h5
        simpa using h6
      refine ⟨x.1, x.2, y.1, y.2, hxps, hyprops, hyc, hyr, ?_, ?_⟩
      · rw [hyr]
        simp only [mkPropReq, reqCardinality]
        by_cases hlt : 2 * y.2.count < x.2.count
        · rw [if_pos hlt]
          constructor
          · intro habs; exact absurd habs (by decide)
          · intro hge; omega
        · rw [if_neg hlt]
          constructor
          · intro _; omega
          · intro _; rfl
      · rw [hyr]
        simp only [mkPropReq, reqCardinality]
        by_cases hlt : 2 * y.2.count < x.2.count
        · rw [if_pos hlt]
          constructor
          · intro _; exact hlt
          · intro _; rfl
        · rw [if_neg hlt]
          constructor
          · intro habs; exact absurd habs (by decide)
          · intro hge; omega

/-- Witness for claim C4: in the sample set totalling 10 the property
counted 6 times is required and the one counted 4 times is optional. -/
theorem claim_C4_witness :
    (sampleGeneratedPsetSpec ∈ createPropertySpecifications samplePsetStats
      ∧ IdsRequirement.prop "P6" "Pset_X" "required" "P6 should be consistently defined"
          ∈ sampleGeneratedPsetSpec.requirements
      ∧ IdsRequirement.prop "P4" "Pset_X" "optional" "P4 should be consistently defined"
          ∈ sampleGeneratedPsetSpec.requirements)
    ∧ (∃ pn info qn qi, (pn, info) ∈ samplePsetStats ∧ (qn, qi) ∈ info.properties
        ∧ 2 ≤ qi.count
        ∧ IdsRequirement.prop "P6" "Pset_X" "required" "P6 should be consistently defined"
            = mkPropReq pn info qn qi
        ∧ (reqCardinality (IdsRequirement.prop "P6" "Pset_X" "required"
              "P6 should be consistently defined") = "required" ↔ info.count ≤ 2 * qi.count)
        ∧ (reqCardinality (IdsRequirement.prop "P6" "Pset_X" "required"
              "P6 should be consistently defined") = "optional" ↔ 2 * qi.count < info.count))
    ∧ (∃ pn info qn qi, (pn, info) ∈ samplePsetStats ∧ (qn, qi) ∈ info.properties
        ∧ 2 ≤ qi.count
        ∧ IdsRequirement.prop "P4" "Pset_X" "optional" "P4 should be consistently defined"
            = mkPropReq pn info qn qi
        ∧ (reqCardinality (IdsRequirement.prop "P4" "Pset_X" "optional"
              "P4 should be consistently defined") = "required" ↔ info.count ≤ 2 * qi.count)
        ∧ (reqCardinality (IdsRequirement.prop "P4" "Pset_X" "optional"
              "P4 should be consistently defined") = "optional" ↔ 2 * qi.count < info.count)) :=
  ⟨⟨by decide, by decide, by decide⟩,
   claim_C4_thm samplePsetStats sampleGeneratedPsetSpec
     (IdsRequirement.prop "P6" "Pset_X" "required" "P6 should be consistently defined")
     (by decide) (by decide),
   claim_C4_thm samplePsetStats sampleGeneratedPsetSpec
     (IdsRequirement.prop "P4" "Pset_X" "optional" "P4 should be consistently defined")
     (by decide) (by decide)⟩
